import Mathlib

/-!
Verification of the DSMR P1-meter adapter (`src/main.rs`).

The development shallowly embeds the two components of the program:

* the field parser (`get_values_by_id` and the `parse_*` metric extractors,
  `src/main.rs` lines 56-334), and
* the frame assembler (the chunk-accumulation loop in `main`,
  `src/main.rs` lines 401-439).

Modelling conventions:

* Rust `&str` values are modelled as `List Char`; the Rust string
  operations used by the source (`lines`, `starts_with`, `split` on a
  character predicate, `replace`, `contains`, `find` of a one-character
  pattern) are reimplemented on `List Char` below, each next to a comment
  naming the Rust operation it embeds.
* Rust `f32` values are idealised as exact rationals (`ℚ`).  The numeric
  strings handled by the program are plain decimal literals, for which
  `f32` parsing is modelled by `parseDecimal` below (optional sign, digits,
  optional fraction); exponent, infinity and NaN forms of the `f32` grammar
  are not used by any telegram field and are left out of the model.
* A Rust panic (`Vec::remove` on an empty vector, `Result::expect` on a
  parse failure) is modelled by the value `none` of an `Option`-typed
  result; `some r` means the Rust function returned `r` normally.
-/

set_option maxRecDepth 100000

deriving instance DecidableEq for Except

/-- Character list of a string literal (Rust `&str` is modelled as `List Char`). -/
def lc (s : String) : List Char := s.data

/-- Splits a character list at every `'\n'`, keeping empty segments,
as the first stage of Rust `str::lines`. -/
def splitOnNl : List Char → List (List Char)
  | [] => [[]]
  | c :: cs =>
    match splitOnNl cs with
    | [] => [[c]]
    | h :: t => if c = '\n' then [] :: h :: t else (c :: h) :: t

/-- Removes one trailing `'\r'`, as Rust `str::lines` does to every
line terminated by `"\r\n"`. -/
def stripCR (l : List Char) : List Char :=
  if l.getLast? = some '\r' then l.dropLast else l

/-- Embeds Rust `str::lines`: split at `'\n'`; every line that was
terminated by `'\n'` loses one trailing `'\r'`; a final empty segment
(from a trailing `'\n'` or an empty string) is not a line, and a final
non-terminated line is kept verbatim. -/
def rustLines (s : List Char) : List (List Char) :=
  let parts := splitOnNl s
  parts.dropLast.map stripCR ++
    (match parts.getLast? with
     | some [] => []
     | some l => [l]
     | none => [])

/-- Embeds Rust `str::split` with a character predicate: splits at every
character satisfying `p`, keeping empty segments. -/
def splitP (p : Char → Bool) : List Char → List (List Char)
  | [] => [[]]
  | c :: cs =>
    match splitP p cs with
    | [] => [[c]]
    | h :: t => if p c then [] :: h :: t else (c :: h) :: t

/-- Fueled helper for `replaceAll`; the fuel makes the recursion
structural so that the kernel can evaluate it. -/
def replaceAllAux (pat rep : List Char) : Nat → List Char → List Char
  | 0, l => l
  | _ + 1, [] => []
  | fuel + 1, c :: cs =>
    if pat ≠ [] ∧ pat.isPrefixOf (c :: cs) then
      rep ++ replaceAllAux pat rep fuel ((c :: cs).drop pat.length)
    else
      c :: replaceAllAux pat rep fuel cs

/-- Embeds Rust `str::replace pat rep`: replaces every (leftmost-first,
non-overlapping) occurrence of `pat`. -/
def replaceAll (pat rep l : List Char) : List Char :=
  replaceAllAux pat rep l.length l

/-- Embeds Rust `str::contains` for a literal pattern. -/
def containsSub (pat : List Char) : List Char → Bool
  | [] => pat.isEmpty
  | c :: cs => pat.isPrefixOf (c :: cs) || containsSub pat cs

/-- Numeric value of a list of decimal digit characters. -/
def digitsToNat (l : List Char) : Nat :=
  l.foldl (fun a c => a * 10 + (c.toNat - 48)) 0

/-- Unsigned decimal parse: digits with an optional single `'.'`,
at least one digit in total; returns the mantissa and the number of
fractional digits. -/
def parseUDec (s : List Char) : Option (Int × Nat) :=
  match splitP (fun c => c = '.') s with
  | [ip] =>
    if ip ≠ [] ∧ ip.all Char.isDigit then some ((digitsToNat ip : Int), 0) else none
  | [ip, fp] =>
    if (ip ≠ [] ∨ fp ≠ []) ∧ ip.all Char.isDigit ∧ fp.all Char.isDigit then
      some ((digitsToNat ip * 10 ^ fp.length + digitsToNat fp : Int), fp.length)
    else none
  | _ => none

/-- Signed decimal parse to mantissa/scale, the integer core of the
model of Rust `str::parse::<f32>` on plain decimal literals. -/
def parseDecInt (s : List Char) : Option (Int × Nat) :=
  match s with
  | '+' :: rest => parseUDec rest
  | '-' :: rest => (parseUDec rest).map (fun p => (-p.1, p.2))
  | _ => parseUDec s

/-- Models Rust `str::parse::<f32>` on plain decimal literals, with the
value idealised as an exact rational. -/
def parseDecimal (s : List Char) : Option ℚ :=
  (parseDecInt s).map (fun p => (p.1 : ℚ) / 10 ^ p.2)

/-- The split predicate of `get_values_by_id`: parenthesis characters. -/
def parenP (c : Char) : Bool := c = '(' || c = ')'

/-- The found-line half of `get_values_by_id` (src/main.rs:64-80): split
the line on parentheses, keep the nonempty segments, remove the leading
segment (`values.remove(0)`, whose panic on an empty vector is the
`none` case), and return the rest when nonempty. -/
def get_values_of_line (line : List Char) : Option (Except String (List (List Char))) :=
  match (splitP parenP line).filter (fun x => x.length != 0) with
  | [] => none
  | _ :: values =>
    if values.length ≠ 0 then some (Except.ok values)
    else some (Except.error "Values not found")

/-- Embeds `get_values_by_id` (src/main.rs:56-84).  `none` models the
panic of `values.remove(0)` on an empty vector; otherwise the result is
the `Result<Vec<&str>, &str>` of the source. -/
def get_values_by_id (id telegram : List Char) : Option (Except String (List (List Char))) :=
  match (rustLines telegram).find? (fun x => id.isPrefixOf x) with
  | some line => get_values_of_line line
  | none => some (Except.error "Index not found")

/-- Embeds `parse_current_tariff` (src/main.rs:202-212); `none` models the
`expect` panic on a failed numeric parse. -/
def parse_current_tariff (telegram : List Char) : Option (Except String ℚ) :=
  match get_values_by_id (lc "0-0:96.14.0") telegram with
  | none => none
  | some (Except.error e) => some (Except.error e)
  | some (Except.ok values) =>
    match values.head? with
    | some v =>
      match parseDecimal v with
      | some q => some (Except.ok q)
      | none => none
    | none => some (Except.error "Could not read current tariff")

/-- Embeds `parse_w_usage` (src/main.rs:102-116): group 0 of tag
`1-0:1.7.0`, remove `"*kW"`, parse (panic on failure), times 1000. -/
def parse_w_usage (telegram : List Char) : Option (Except String ℚ) :=
  match get_values_by_id (lc "1-0:1.7.0") telegram with
  | none => none
  | some (Except.error e) => some (Except.error e)
  | some (Except.ok values) =>
    match values.head? with
    | some v =>
      match parseDecimal (replaceAll (lc "*kW") [] v) with
      | some q => some (Except.ok (q * 1000))
      | none => none
    | none => some (Except.error "Could not read Watt usage")

/-- Embeds `parse_w_production` (src/main.rs:185-199). -/
def parse_w_production (telegram : List Char) : Option (Except String ℚ) :=
  match get_values_by_id (lc "1-0:2.7.0") telegram with
  | none => none
  | some (Except.error e) => some (Except.error e)
  | some (Except.ok values) =>
    match values.head? with
    | some v =>
      match parseDecimal (replaceAll (lc "*kW") [] v) with
      | some q => some (Except.ok (q * 1000))
      | none => none
    | none => some (Except.error "Could not read Watt production")

/-- Embeds `parse_w_usage_accumulative` (src/main.rs:119-149): both
tariff lookups first, then parse tariff 1 (panic on failure), then
tariff 2, and sum. -/
def parse_w_usage_accumulative (telegram : List Char) : Option (Except String ℚ) :=
  match get_values_by_id (lc "1-0:1.8.1") telegram with
  | none => none
  | some (Except.error e) => some (Except.error e)
  | some (Except.ok values1) =>
    match get_values_by_id (lc "1-0:1.8.2") telegram with
    | none => none
    | some (Except.error e) => some (Except.error e)
    | some (Except.ok values2) =>
      match values1.head? with
      | some v1 =>
        match parseDecimal (replaceAll (lc "*kWh") [] v1) with
        | none => none
        | some q1 =>
          match values2.head? with
          | some v2 =>
            match parseDecimal (replaceAll (lc "*kWh") [] v2) with
            | none => none
            | some q2 => some (Except.ok (q1 + q2))
          | none => some (Except.error "Could not read Watt usage accumulative tariff 2")
      | none => some (Except.error "Could not read Watt usage accumulative tariff 1")

/-- Embeds `parse_w_production_accumulative` (src/main.rs:152-182). -/
def parse_w_production_accumulative (telegram : List Char) : Option (Except String ℚ) :=
  match get_values_by_id (lc "1-0:2.8.1") telegram with
  | none => none
  | some (Except.error e) => some (Except.error e)
  | some (Except.ok values1) =>
    match get_values_by_id (lc "1-0:2.8.2") telegram with
    | none => none
    | some (Except.error e) => some (Except.error e)
    | some (Except.ok values2) =>
      match values1.head? with
      | some v1 =>
        match parseDecimal (replaceAll (lc "*kWh") [] v1) with
        | none => none
        | some q1 =>
          match values2.head? with
          | some v2 =>
            match parseDecimal (replaceAll (lc "*kWh") [] v2) with
            | none => none
            | some q2 => some (Except.ok (q1 + q2))
          | none => some (Except.error "Could not read Watt production accumulative tariff 2")
      | none => some (Except.error "Could not read Watt production accumulative tariff 1")

/-- Embeds `parse_gas_usage_accumulative` (src/main.rs:215-234): group 1
of tag `0-1:24.2.1`; require the group to contain `"*m3"`; remove the
occurrences of `"*m3"` and parse, a parse failure being a recoverable
error (no panic on this path). -/
def parse_gas_usage_accumulative (telegram : List Char) : Option (Except String ℚ) :=
  match get_values_by_id (lc "0-1:24.2.1") telegram with
  | none => none
  | some (Except.error e) => some (Except.error e)
  | some (Except.ok values) =>
    match values[1]? with
    | some v =>
      if containsSub (lc "*m3") v = false then
        some (Except.error "Invalid gas usage detected, not parsing")
      else
        match parseDecimal (replaceAll (lc "*m3") [] v) with
        | none => some (Except.error "Could not parse gas usage accumulative")
        | some q => some (Except.ok q)
    | none => some (Except.error "Could not read gas usage accumulative")

/-- One successful metric post: `post_influx_db` with key `k` is modelled
as emitting the pair `(k, value)`; a failed metric emits nothing. -/
def emitE (k : String) (r : Except String ℚ) : List (String × ℚ) :=
  match r with
  | Except.ok v => [(k, v)]
  | Except.error _ => []

/-- Derived-metric post: emitted only when both operands are `ok`, with
value `p - u` (production minus usage), as in src/main.rs:278-284 and
303-318. -/
def nettE (k : String) (p u : Except String ℚ) : List (String × ℚ) :=
  match p, u with
  | Except.ok p, Except.ok u => [(k, p - u)]
  | _, _ => []

/-- Core of `parse_telegram` (src/main.rs:237-334) as a function of the
six metric results.  The returned list is the ordered sequence of posted
`(key, value)` pairs; the Boolean is `true` when a panic (`none` result)
halted processing, in which case the list holds only the posts made
before the panic. -/
def parse_telegram_core (r1 r2 r3 r4 r5 r6 : Option (Except String ℚ)) :
    List (String × ℚ) × Bool :=
  match r1 with
  | none => ([], true)
  | some t1 =>
    let o1 := emitE "currentTariff" t1
    match r2 with
    | none => (o1, true)
    | some u =>
      let o2 := o1 ++ emitE "wattUsage" u
      match r3 with
      | none => (o2, true)
      | some ua =>
        let o3 := o2 ++ emitE "wattUsageAccumulative" ua
        match r4 with
        | none => (o3, true)
        | some p =>
          let o4 := o3 ++ emitE "wattProduction" p ++ nettE "wattNett" p u
          match r5 with
          | none => (o4, true)
          | some pa =>
            let o5 := o4 ++ emitE "wattProductionAccumulative" pa ++
              nettE "wattAccumulativeNett" pa ua
            match r6 with
            | none => (o5, true)
            | some g => (o5 ++ emitE "gasUsageAccumulative" g, false)

/-- Embeds `parse_telegram` (src/main.rs:237-334): the six extractions in
source order, with the two derived nett metrics interleaved as in the
source. -/
def parse_telegram (t : List Char) : List (String × ℚ) × Bool :=
  parse_telegram_core (parse_current_tariff t) (parse_w_usage t)
    (parse_w_usage_accumulative t) (parse_w_production t)
    (parse_w_production_accumulative t) (parse_gas_usage_accumulative t)

/-- The fixed key order in which `parse_telegram` posts metrics. -/
def metricOrder : List String :=
  ["currentTariff", "wattUsage", "wattUsageAccumulative", "wattProduction",
   "wattNett", "wattProductionAccumulative", "wattAccumulativeNett",
   "gasUsageAccumulative"]

/-- Did a metric extraction return a value (no panic, no error)? -/
def succeeded (r : Option (Except String ℚ)) : Bool :=
  match r with
  | some (Except.ok _) => true
  | _ => false

/-- Example telegram built from the sample in src/main.rs:349, reduced to
the tagged lines the metric table uses. -/
def exampleTelegram : List Char :=
  lc "/KFM5KAIFA-METER\r\n\r\n0-0:96.14.0(0002)\r\n1-0:1.8.1(007392.132*kWh)\r\n1-0:1.8.2(007139.800*kWh)\r\n1-0:2.8.1(001795.226*kWh)\r\n1-0:2.8.2(004446.275*kWh)\r\n1-0:1.7.0(00.131*kW)\r\n1-0:2.7.0(00.000*kW)\r\n0-1:24.2.1(210205130000W)(07025.512*m3)\r\n!8234\r\n"

/-- One step of the frame assembler (src/main.rs:401-439): on a chunk
containing the start marker `'/'` the accumulator is cleared first; if
the chunk contains the end marker `'!'` the buffer plus this chunk is
emitted as a telegram and the accumulator is cleared, otherwise the
chunk is appended.  A chunk is the lossily decoded text of one serial
read, modelled as a `List Char`. -/
def stepA (buf c : List Char) : List Char × Option (List Char) :=
  let b := if '/' ∈ c then [] else buf
  if '!' ∈ c then ([], some (b ++ c)) else (b ++ c, none)

/-- Runs the frame assembler from buffer `buf` over a chunk sequence,
returning the final buffer and the emitted telegrams in order. -/
def runFrom (buf : List Char) : List (List Char) → List Char × List (List Char)
  | [] => (buf, [])
  | c :: cs =>
    let s := stepA buf c
    let r := runFrom s.1 cs
    (r.1, s.2.toList ++ r.2)

/-- Character-level reference semantics: the assembler fed one character
per chunk. -/
def stepC (buf : List Char) (ch : Char) : List Char × Option (List Char) :=
  let b := if ch = '/' then [] else buf
  if ch = '!' then ([], some (b ++ [ch])) else (b ++ [ch], none)

/-- Runs the character-level assembler over a character sequence. -/
def runChars (buf : List Char) : List Char → List Char × List (List Char)
  | [] => (buf, [])
  | ch :: s =>
    let st := stepC buf ch
    let r := runChars st.1 s
    (r.1, st.2.toList ++ r.2)

/-- A chunk is aligned when `'/'` can occur only as its first character
and `'!'` only as its last character. -/
def Aligned (c : List Char) : Prop :=
  ∃ s m e, c = s ++ m ++ e ∧ (s = [] ∨ s = ['/']) ∧ (e = [] ∨ e = ['!']) ∧
    '/' ∉ m ∧ '!' ∉ m

theorem runFrom_append (buf : List Char) (xs ys : List (List Char)) :
    runFrom buf (xs ++ ys) =
      ((runFrom (runFrom buf xs).1 ys).1,
        (runFrom buf xs).2 ++ (runFrom (runFrom buf xs).1 ys).2) := by
  induction xs generalizing buf with
  | nil => simp [runFrom]
  | cons c xs ih => simp [runFrom, ih, List.append_assoc]

theorem stepA_sof_reset (buf c : List Char) (h : '/' ∈ c) :
    stepA buf c = stepA [] c := by
  simp [stepA, h]

theorem stepA_no_mark (buf c : List Char) (h1 : '/' ∉ c) (h2 : '!' ∉ c) :
    stepA buf c = (buf ++ c, none) := by
  simp [stepA, h1, h2]

theorem runFrom_no_eof (buf : List Char) (cs : List (List Char))
    (h : ∀ x ∈ cs, '!' ∉ x) : (runFrom buf cs).2 = [] := by
  induction cs generalizing buf with
  | nil => simp [runFrom]
  | cons c cs ih =>
    have hc : '!' ∉ c := h c (by simp)
    simp [runFrom, stepA, hc, ih _ (fun x hx => h x (by simp [hx]))]

theorem runFrom_no_mark (buf : List Char) (cs : List (List Char))
    (h : ∀ x ∈ cs, '/' ∉ x ∧ '!' ∉ x) : runFrom buf cs = (buf ++ cs.flatten, []) := by
  induction cs generalizing buf with
  | nil => simp [runFrom]
  | cons c cs ih =>
    have hc := h c (by simp)
    simp [runFrom, stepA_no_mark buf c hc.1 hc.2,
      ih _ (fun x hx => h x (by simp [hx])), List.flatten]

theorem runChars_append (buf : List Char) (xs ys : List Char) :
    runChars buf (xs ++ ys) =
      ((runChars (runChars buf xs).1 ys).1,
        (runChars buf xs).2 ++ (runChars (runChars buf xs).1 ys).2) := by
  induction xs generalizing buf with
  | nil => simp [runChars]
  | cons ch xs ih => simp [runChars, ih, List.append_assoc]

theorem runChars_no_mark (buf m : List Char) (h1 : '/' ∉ m) (h2 : '!' ∉ m) :
    runChars buf m = (buf ++ m, []) := by
  induction m generalizing buf with
  | nil => simp [runChars]
  | cons ch m ih =>
    have hch1 : ¬ ch = '/' := by rintro rfl; exact h1 (by simp)
    have hch2 : ¬ ch = '!' := by rintro rfl; exact h2 (by simp)
    have hm1 : '/' ∉ m := fun hx => h1 (by simp [hx])
    have hm2 : '!' ∉ m := fun hx => h2 (by simp [hx])
    simp [runChars, stepC, hch1, hch2, ih _ hm1 hm2]

theorem runChars_aligned_chunk (c : List Char) (h : Aligned c) (buf : List Char) :
    runChars buf c = ((stepA buf c).1, (stepA buf c).2.toList) := by
  obtain ⟨s, m, e, rfl, hs, he, hm1, hm2⟩ := h
  rcases hs with rfl | rfl <;> rcases he with rfl | rfl
  · simp only [List.append_nil, List.nil_append]
    simp [runChars_no_mark buf m hm1 hm2, stepA, hm1, hm2]
  · simp only [List.nil_append]
    rw [runChars_append]
    simp [runChars_no_mark buf m hm1 hm2, runChars, stepC, stepA, hm1, hm2]
  · simp only [List.append_nil]
    show runChars buf ('/' :: m) = _
    rw [show ('/' :: m : List Char) = ['/'] ++ m by rfl, runChars_append]
    simp [runChars, stepC, runChars_no_mark _ m hm1 hm2, stepA, hm1, hm2]
  · show runChars buf ('/' :: (m ++ ['!'])) = _
    rw [show ('/' :: (m ++ ['!']) : List Char) = ['/'] ++ (m ++ ['!']) by rfl,
      runChars_append, runChars_append]
    simp [runChars, stepC, runChars_no_mark _ m hm1 hm2, stepA, hm1, hm2]

theorem runFrom_aligned (P : List (List Char)) (h : ∀ c ∈ P, Aligned c)
    (buf : List Char) : runFrom buf P = runChars buf P.flatten := by
  induction P generalizing buf with
  | nil => simp [runFrom, runChars, List.flatten]
  | cons c P ih =>
    have hc := runChars_aligned_chunk c (h c (by simp)) buf
    rw [show ((c :: P : List (List Char)).flatten) = c ++ P.flatten by simp [List.flatten],
      runChars_append, hc]
    simp [runFrom, ih (fun x hx => h x (by simp [hx]))]

example : rustLines (lc "a\r\nb\nc\r") = [lc "a", lc "b", lc "c\r"] := by decide

example : runFrom [] [lc "/a", lc "b!"] = ([], [lc "/ab!"]) := by decide

example : runFrom [] [lc "/a!b/c!"] = ([], [lc "/a!b/c!"]) := by decide

example : runFrom [] [lc "/a!", lc "b/c!"] = ([], [lc "/a!", lc "b/c!"]) := by decide

example : splitP (fun c => c = '(' || c = ')') (lc "1-0:1.7.0(00.131*kW)") =
    [lc "1-0:1.7.0", lc "00.131*kW", []] := by decide

example : get_values_by_id (lc "1-0:1.7.0") exampleTelegram =
    some (Except.ok [lc "00.131*kW"]) := by decide

example : get_values_by_id (lc "0-1:24.2.1") exampleTelegram =
    some (Except.ok [lc "210205130000W", lc "07025.512*m3"]) := by decide

example : replaceAll (lc "*kW") [] (lc "00.131*kW") = lc "00.131" := by decide

example : parseDecInt (lc "00.131") = some (131, 3) := by decide

example : parseDecInt (lc "abc") = none := by decide

theorem runFrom_emission_prov (cs : List (List Char)) :
    ∀ buf T, T ∈ (runFrom buf cs).2 →
      (∃ mid post, cs = mid ++ post ∧ T = buf ++ mid.flatten ∧ mid ≠ [] ∧
        ∀ x ∈ mid, '/' ∉ x) ∨
      (∃ pre mid post, cs = pre ++ mid ++ post ∧ T = mid.flatten ∧ mid ≠ [] ∧
        ∀ x ∈ mid.drop 1, '/' ∉ x) := by
  induction cs with
  | nil => intro buf T h; simp [runFrom] at h
  | cons c cs ih =>
    intro buf T h
    by_cases hE : '!' ∈ c
    · have hstep : stepA buf c = ([], some ((if '/' ∈ c then [] else buf) ++ c)) := by
        simp [stepA, hE]
      have h' : T = (if '/' ∈ c then [] else buf) ++ c ∨ T ∈ (runFrom [] cs).2 := by
        simpa [runFrom, hstep] using h
      rcases h' with hTeq | hT
      · by_cases hS : '/' ∈ c
        · right
          exact ⟨[], [c], cs, by simp, by simp [hTeq, hS], by simp, by simp⟩
        · left
          exact ⟨[c], cs, rfl, by simp [hTeq, hS], by simp, by simpa using hS⟩
      · rcases ih [] T hT with
          ⟨mid, post, hcs, hT', hne, hmid⟩ | ⟨pre, mid, post, hcs, hT', hne, hmid⟩
        · right
          exact ⟨[c], mid, post, by simp [hcs], by simpa using hT', hne,
            fun x hx => hmid x (List.drop_subset 1 mid hx)⟩
        · right
          exact ⟨c :: pre, mid, post, by simp [hcs], hT', hne, hmid⟩
    · have hstep : stepA buf c = ((if '/' ∈ c then [] else buf) ++ c, none) := by
        simp [stepA, hE]
      have hT : T ∈ (runFrom ((if '/' ∈ c then [] else buf) ++ c) cs).2 := by
        simpa [runFrom, hstep] using h
      by_cases hS : '/' ∈ c
      · rcases ih ([] ++ c) T (by simpa [hS] using hT) with
          ⟨mid, post, hcs, hT', hne, hmid⟩ | ⟨pre, mid, post, hcs, hT', hne, hmid⟩
        · right
          refine ⟨[], c :: mid, post, by simp [hcs], ?_, by simp, ?_⟩
          · simp at hT'; simp [hT']
          · simpa using hmid
        · right
          exact ⟨c :: pre, mid, post, by simp [hcs], hT', hne, hmid⟩
      · rcases ih (buf ++ c) T (by simpa [hS] using hT) with
          ⟨mid, post, hcs, hT', hne, hmid⟩ | ⟨pre, mid, post, hcs, hT', hne, hmid⟩
        · left
          refine ⟨c :: mid, post, by simp [hcs], by simp [hT'], by simp, ?_⟩
          intro x hx
          rcases List.mem_cons.mp hx with rfl | hx
          · exact hS
          · exact hmid x hx
        · right
          exact ⟨c :: pre, mid, post, by simp [hcs], hT', hne, hmid⟩

/-- C4: whenever a chunk containing the start marker `'/'` arrives, the
previously accumulated content is discarded before the chunk is appended
(the step does not depend on the old buffer), and every emitted telegram
is the concatenation of a consecutive run of chunks none of which, after
the first, contains a start marker — so no telegram contains bytes that
arrived before the most recent start-marker chunk. -/
theorem assembler_discard_on_resync :
    (∀ buf c, '/' ∈ c → stepA buf c = stepA [] c) ∧
    (∀ cs T, T ∈ (runFrom [] cs).2 →
      ∃ pre mid post, cs = pre ++ mid ++ post ∧ T = mid.flatten ∧ mid ≠ [] ∧
        ∀ x ∈ mid.drop 1, '/' ∉ x) := by
  constructor
  · exact fun buf c h => stepA_sof_reset buf c h
  · intro cs T h
    rcases runFrom_emission_prov cs [] T h with
      ⟨mid, post, hcs, hT, hne, hmid⟩ | ⟨pre, mid, post, hcs, hT, hne, hmid⟩
    · exact ⟨[], mid, post, by simp [hcs], by simpa using hT, hne,
        fun x hx => hmid x (List.drop_subset 1 mid hx)⟩
    · exact ⟨pre, mid, post, hcs, hT, hne, hmid⟩

/-- Witness for C4 at concrete inputs. -/
theorem assembler_discard_on_resync_witness :
    stepA (lc "x") (lc "/a") = stepA [] (lc "/a") ∧
    ∃ pre mid post, [lc "/!"] = pre ++ mid ++ post ∧ lc "/!" = mid.flatten ∧
      mid ≠ [] ∧ ∀ x ∈ mid.drop 1, '/' ∉ x :=
  ⟨assembler_discard_on_resync.1 (lc "x") (lc "/a") (by decide),
   assembler_discard_on_resync.2 [lc "/!"] (lc "/!") (by decide)⟩

/-- Claim C2 exactly as stated: if the concatenation of the chunks
contains a `'/'` followed eventually by a `'!'` with no `'/'` in
between, then exactly one telegram is emitted, spanning the chunks from
the one containing the start marker through the one containing the end
marker. -/
def ClaimC2 : Prop :=
  ∀ cs : List (List Char),
    (∃ i j, i < j ∧ cs.flatten.get? i = some '/' ∧ cs.flatten.get? j = some '!' ∧
      ∀ k, i < k → k < j → cs.flatten.get? k ≠ some '/') →
    (runFrom [] cs).2.length = 1 ∧
    ∃ a b, a ≤ b ∧ b < cs.length ∧ '/' ∈ cs.getD a [] ∧ '!' ∈ cs.getD b [] ∧
      (runFrom [] cs).2 = [((cs.drop a).take (b + 1 - a)).flatten]

/-- Counterexample to C2 as stated: the chunks `["!", "/a!"]`
concatenate to `"!/a!"`, whose `'/'` (position 1) is followed by a `'!'`
(position 3) with no start marker in between, yet the assembler emits
two telegrams (`"!"` and `"/a!"`), not one. -/
theorem c2_counterexample : ¬ ClaimC2 := by
  intro h
  have h2 := h [lc "!", lc "/a!"]
    ⟨1, 3, by omega, by decide, by decide, by
      intro k h1 h2
      have hk : k = 2 := by omega
      subst hk; decide⟩
  exact absurd h2.1 (by decide)

/-- C2 (amended): for every chunk sequence decomposable as
`pre ++ (c :: rest) ++ post` where no chunk of `pre` or `post` and no
chunk of `c :: rest` except the last contains the end marker, the last
chunk of `c :: rest` contains the end marker, the first chunk `c`
contains the start marker and no later chunk of `rest` does, the
assembler emits exactly one telegram: the concatenation of the chunks
`c :: rest`. -/
theorem assembler_single_frame (pre : List (List Char)) (c : List Char)
    (rest post : List (List Char))
    (hpre : ∀ x ∈ pre, '!' ∉ x)
    (hc : '/' ∈ c)
    (hrest : ∀ x ∈ rest, '/' ∉ x)
    (hlast : '!' ∈ (c :: rest).getLastD [])
    (hinit : ∀ x ∈ (c :: rest).dropLast, '!' ∉ x)
    (hpost : ∀ x ∈ post, '!' ∉ x) :
    (runFrom [] (pre ++ (c :: rest) ++ post)).2 = [(c :: rest).flatten] := by
  have hassoc : pre ++ (c :: rest) ++ post = pre ++ ((c :: rest) ++ post) := by
    simp [List.append_assoc]
  rw [hassoc, runFrom_append, runFrom_no_eof [] pre hpre, runFrom_append,
    runFrom_no_eof _ post hpost]
  set B := (runFrom [] pre).1 with hB
  rcases List.eq_nil_or_concat rest with rfl | ⟨ms, d, hrest_eq⟩
  · have hEc : '!' ∈ c := by simpa using hlast
    simp [runFrom, stepA, hc, hEc]
  · rw [List.concat_eq_append] at hrest_eq
    subst hrest_eq
    have hEc : '!' ∉ c := by
      apply hinit c
      rw [← List.cons_append, List.dropLast_concat]
      simp
    have hEd : '!' ∈ (c :: (ms ++ [d])).getLastD [] := hlast
    rw [← List.cons_append, List.getLastD_concat] at hEd
    have hSd : '/' ∉ d := hrest d (by simp)
    have hms : ∀ x ∈ ms, '/' ∉ x ∧ '!' ∉ x := by
      intro x hx
      refine ⟨hrest x (by simp [hx]), ?_⟩
      apply hinit x
      rw [← List.cons_append, List.dropLast_concat]
      simp [hx]
    have hsplit : (c :: (ms ++ [d]) : List (List Char)) = [c] ++ ms ++ [d] := by simp
    rw [hsplit, runFrom_append, runFrom_append]
    have h1 : runFrom B [c] = (c, []) := by
      simp [runFrom, stepA, hc, hEc]
    rw [h1]
    rw [runFrom_no_mark c ms hms]
    simp [runFrom, stepA, hSd, hEd]

/-- Witness for the amended C2 at a concrete chunk sequence. -/
theorem assembler_single_frame_witness :
    (runFrom [] ([lc "x"] ++ (lc "/a" :: [lc "b!"]) ++ [lc "c"])).2 =
      [(lc "/a" :: [lc "b!"]).flatten] :=
  assembler_single_frame [lc "x"] (lc "/a") [lc "b!"] [lc "c"]
    (by decide) (by decide) (by decide) (by decide) (by decide) (by decide)

/-- Claim C3 exactly as stated: any two partitions of the same total
byte sequence yield the same set of emitted telegrams. -/
def ClaimC3 : Prop :=
  ∀ P1 P2 : List (List Char), P1.flatten = P2.flatten →
    ∀ T, T ∈ (runFrom [] P1).2 ↔ T ∈ (runFrom [] P2).2

/-- Counterexample to C3 as stated: the byte sequence `"/a!b/c!"` fed as
a single chunk emits the one telegram `"/a!b/c!"`, while fed as
`["/a!", "b/c!"]` it emits `"/a!"` and `"b/c!"`; the telegram `"/a!"`
is emitted under the second partition only. -/
theorem c3_counterexample : ¬ ClaimC3 := by
  intro h
  have := (h [lc "/a!b/c!"] [lc "/a!", lc "b/c!"] (by decide) (lc "/a!")).mpr (by decide)
  exact absurd this (by decide)

/-- C3 (amended): chunk boundaries are irrelevant to the emitted
telegrams for aligned partitions — partitions whose chunks contain the
start marker only as first character and the end marker only as last
character; any two aligned partitions of the same byte sequence yield
the same emitted telegrams. -/
theorem assembler_aligned_invariance (P1 P2 : List (List Char))
    (h1 : ∀ c ∈ P1, Aligned c) (h2 : ∀ c ∈ P2, Aligned c)
    (hflat : P1.flatten = P2.flatten) :
    (runFrom [] P1).2 = (runFrom [] P2).2 := by
  rw [runFrom_aligned P1 h1, runFrom_aligned P2 h2, hflat]

/-- Witness for the amended C3 at two concrete aligned partitions. -/
theorem assembler_aligned_invariance_witness :
    (runFrom [] [lc "/a!"]).2 = (runFrom [] [lc "/", lc "a!"]).2 := by
  have a1 : Aligned (lc "/a!") :=
    ⟨['/'], ['a'], ['!'], by decide, Or.inr rfl, Or.inr rfl, by decide, by decide⟩
  have a2 : Aligned (lc "/") :=
    ⟨['/'], [], [], by decide, Or.inr rfl, Or.inl rfl, by decide, by decide⟩
  have a3 : Aligned (lc "a!") :=
    ⟨[], ['a'], ['!'], by decide, Or.inl rfl, Or.inr rfl, by decide, by decide⟩
  exact assembler_aligned_invariance [lc "/a!"] [lc "/", lc "a!"]
    (by intro c hc; simp at hc; subst hc; exact a1)
    (by
      intro c hc
      simp at hc
      rcases hc with rfl | rfl
      · exact a2
      · exact a3)
    (by decide)

/-- Finds the text up to the first `')'`, returning it and the remainder
after the `')'`; `none` when no `')'` follows. -/
def splitAtClose : List Char → Option (List Char × List Char)
  | [] => none
  | c :: cs =>
    if c = ')' then some ([], cs)
    else (splitAtClose cs).map (fun p => (c :: p.1, p.2))

/-- Fueled scanner for `valueGroupsSpec`. -/
def valueGroupsAux : Nat → List Char → List (List Char)
  | 0, _ => []
  | _ + 1, [] => []
  | fuel + 1, c :: cs =>
    if c = '(' then
      match splitAtClose cs with
      | some (g, rest) => g :: valueGroupsAux fuel rest
      | none => []
    else valueGroupsAux fuel cs

/-- Modelled from the spec: the ordered left-to-right list of every
substring lying between a matched `'('`...`')'` pair on a line, the text
before the first `'('` (the tag identifier) and between or after groups
being discarded. -/
def valueGroupsSpec (s : List Char) : List (List Char) :=
  valueGroupsAux s.length s

/-- Concatenation of parenthesised groups `"(g1)(g2)..."`. -/
def groupsRaw (gs : List (List Char)) : List Char :=
  (gs.map (fun g => '(' :: (g ++ [')']))).flatten

theorem splitP_ne_nil (p : Char → Bool) (l : List Char) : splitP p l ≠ [] := by
  cases l with
  | nil => simp [splitP]
  | cons c cs =>
    cases h : splitP p cs with
    | nil => simp [splitP, h]
    | cons hd tl =>
      by_cases hc : p c <;> simp [splitP, h, hc]

theorem splitP_cons_shape (p : Char → Bool) (l : List Char) :
    ∃ hd tl, splitP p l = hd :: tl := by
  cases h : splitP p l with
  | nil => exact absurd h (splitP_ne_nil p l)
  | cons hd tl => exact ⟨hd, tl, rfl⟩

theorem splitP_delim_cons (p : Char → Bool) (c : Char) (l : List Char)
    (h : p c = true) : splitP p (c :: l) = [] :: splitP p l := by
  obtain ⟨hd, tl, hsp⟩ := splitP_cons_shape p l
  simp [splitP, hsp, h]

theorem splitP_nodelim_cons (p : Char → Bool) (c : Char) (l : List Char)
    (h : p c = false) :
    splitP p (c :: l) = (splitP p l).modifyHead (fun x => c :: x) := by
  obtain ⟨hd, tl, hsp⟩ := splitP_cons_shape p l
  simp [splitP, hsp, h]

theorem splitP_append_nodelim (p : Char → Bool) (a l : List Char)
    (h : ∀ c ∈ a, p c = false) :
    splitP p (a ++ l) = (splitP p l).modifyHead (fun x => a ++ x) := by
  induction a with
  | nil =>
    obtain ⟨hd, tl, hsp⟩ := splitP_cons_shape p l
    simp [hsp]
  | cons c a ih =>
    have hc : p c = false := h c (by simp)
    have ha : ∀ x ∈ a, p x = false := fun x hx => h x (by simp [hx])
    obtain ⟨hd, tl, hsp⟩ := splitP_cons_shape p l
    rw [List.cons_append, splitP_nodelim_cons p c (a ++ l) hc, ih ha, hsp]
    simp

theorem splitP_groupsRaw (gs : List (List Char))
    (hgs : ∀ g ∈ gs, ∀ c ∈ g, parenP c = false) :
    splitP parenP (groupsRaw gs) =
      gs.flatMap (fun g => [[], g]) ++ [[]] := by
  induction gs with
  | nil => simp [groupsRaw, splitP]
  | cons g gs ih =>
    have h1 : groupsRaw (g :: gs) = '(' :: (g ++ (')' :: groupsRaw gs)) := by
      simp [groupsRaw]
    rw [h1, splitP_delim_cons parenP '(' _ (by decide),
      splitP_append_nodelim parenP g _ (hgs g (by simp)),
      splitP_delim_cons parenP ')' _ (by decide),
      ih (fun g' hg' => hgs g' (by simp [hg']))]
    simp

theorem filter_interleave (gs : List (List Char)) :
    ((gs.flatMap (fun g => [([] : List Char), g]) ++ [[]]).filter
        (fun x => x.length != 0)) =
      gs.filter (fun g => g.length != 0) := by
  induction gs with
  | nil => simp
  | cons g gs ih =>
    rw [List.flatMap_cons]
    show ((([] : List Char) :: g :: (gs.flatMap (fun g => [[], g]) ++ [[]])).filter
        (fun x => x.length != 0)) = _
    rw [List.filter_cons, List.filter_cons]
    simp only [List.length_nil]
    rw [List.filter_cons]
    by_cases hg : g.length != 0 <;> simp [hg, ih]

theorem filtered_split_structured (pre : List Char) (gs : List (List Char))
    (hpre : ∀ c ∈ pre, parenP c = false)
    (hgs : ∀ g ∈ gs, ∀ c ∈ g, parenP c = false)
    (hpre_ne : pre ≠ []) :
    ((splitP parenP (pre ++ groupsRaw gs)).filter (fun x => x.length != 0)) =
      pre :: gs.filter (fun g => g.length != 0) := by
  rw [splitP_append_nodelim parenP pre _ hpre, splitP_groupsRaw gs hgs]
  have hhead : ∃ tl, gs.flatMap (fun g => [([] : List Char), g]) ++ [[]] = [] :: tl := by
    cases gs with
    | nil => exact ⟨[], rfl⟩
    | cons g gs => exact ⟨_, rfl⟩
  obtain ⟨tl, htl⟩ := hhead
  rw [htl]
  simp only [List.modifyHead, List.append_nil]
  rw [List.filter_cons]
  have hpre_len : (pre.length != 0) = true := by
    cases pre with
    | nil => exact absurd rfl hpre_ne
    | cons c cs => simp
  rw [if_pos hpre_len]
  have := filter_interleave gs
  rw [htl] at this
  rw [List.filter_cons] at this
  simp only [List.length_nil] at this
  simpa using congrArg (fun l => pre :: l) this

/-- Claim C1 exactly as stated: a successful lookup returns exactly the
ordered list of every substring lying between a `'('`...`')'` pair on
the first line whose text starts with the identifier, with the tag
identifier text before the first `'('` discarded and nothing else added
or removed. -/
def ClaimC1 : Prop :=
  ∀ id t vs line, get_values_by_id id t = some (Except.ok vs) →
    (rustLines t).find? (fun x => id.isPrefixOf x) = some line →
    vs = valueGroupsSpec line

/-- Counterexample to C1 as stated: on the line `"a()(b)"` with
identifier `"a"` the between-parentheses substrings are `["", "b"]`,
but the code filters out empty split segments and returns `["b"]` — the
empty value group is removed. -/
theorem c1_counterexample : ¬ ClaimC1 := by
  intro h
  have := h (lc "a") (lc "a()(b)") [lc "b"] (lc "a()(b)") (by decide) (by decide)
  exact absurd this (by decide)

/-- C1 (amended): for a matched line consisting of a nonempty
parenthesis-free identifier part followed immediately by parenthesised
value groups with no other text between or after them, the lookup
returns the ordered list of the nonempty value groups, the identifier
part being discarded; empty value groups are dropped, and when no
nonempty group exists the lookup fails with the no-values error. -/
theorem get_values_structured_line (id t : List Char) (line pre : List Char)
    (gs : List (List Char))
    (hfind : (rustLines t).find? (fun x => id.isPrefixOf x) = some line)
    (hline : line = pre ++ groupsRaw gs)
    (hpre_ne : pre ≠ [])
    (hpre : ∀ c ∈ pre, parenP c = false)
    (hgs : ∀ g ∈ gs, ∀ c ∈ g, parenP c = false) :
    get_values_by_id id t =
      if gs.filter (fun g => g.length != 0) = [] then
        some (Except.error "Values not found")
      else some (Except.ok (gs.filter (fun g => g.length != 0))) := by
  have hstep : get_values_by_id id t = get_values_of_line line := by
    unfold get_values_by_id
    rw [hfind]
  rw [hstep, hline]
  unfold get_values_of_line
  rw [filtered_split_structured pre gs hpre hgs hpre_ne]
  cases hF : gs.filter (fun g => g.length != 0) with
  | nil => simp [hF]
  | cons a as => simp [hF]

/-- Witness for the amended C1: on the example telegram's usage line the
lookup returns exactly the single nonempty value group. -/
theorem get_values_structured_line_witness :
    get_values_by_id (lc "1-0:1.7.0") exampleTelegram =
      some (Except.ok [lc "00.131*kW"]) := by
  have h := get_values_structured_line (lc "1-0:1.7.0") exampleTelegram
    (lc "1-0:1.7.0(00.131*kW)") (lc "1-0:1.7.0") [lc "00.131*kW"]
    (by decide) (by decide) (by decide) (by decide) (by decide)
  simpa using h

/-- Claim C10 exactly as stated (main part): for every nonempty
identifier and every telegram the lookup terminates without panicking,
with every `ok` result a nonempty list of value groups. -/
def ClaimC10 : Prop :=
  ∀ id t : List Char, id ≠ [] →
    (∃ r, get_values_by_id id t = some r) ∧
    (∀ vs, get_values_by_id id t = some (Except.ok vs) → vs ≠ [])

/-- Counterexample to C10 as stated: the nonempty identifier `"("` on
the one-line telegram `"("` matches the line, the split on parentheses
produces no nonempty segment, and `values.remove(0)` panics — the
nonemptiness of the identifier alone does not protect the removal. -/
theorem c10_counterexample : ¬ ClaimC10 := by
  intro h
  obtain ⟨r, hr⟩ := (h (lc "(") (lc "(") (by decide)).1
  have hnone : get_values_by_id (lc "(") (lc "(") = none := by decide
  rw [hnone] at hr
  exact Option.noConfusion hr

theorem isPrefixOf_mem {id line : List Char} (h : id.isPrefixOf line = true)
    {c : Char} (hc : c ∈ id) : c ∈ line := by
  induction id generalizing line with
  | nil => simp at hc
  | cons a id ih =>
    cases line with
    | nil => simp [List.isPrefixOf] at h
    | cons b line =>
      simp only [List.isPrefixOf, Bool.and_eq_true, beq_iff_eq] at h
      rcases List.mem_cons.mp hc with rfl | hc
      · simp [h.1]
      · exact List.mem_cons_of_mem _ (ih h.2 hc)

theorem splitP_mem_exists (p : Char → Bool) (l : List Char) (c : Char)
    (hc : c ∈ l) (hp : p c = false) : ∃ part ∈ splitP p l, c ∈ part := by
  induction l with
  | nil => simp at hc
  | cons a l ih =>
    obtain ⟨hd, tl, hsp⟩ := splitP_cons_shape p l
    rcases List.mem_cons.mp hc with rfl | hc
    · refine ⟨c :: hd, ?_, by simp⟩
      rw [splitP_nodelim_cons p c l hp, hsp]
      simp
    · rcases ih hc with ⟨part, hpart, hcpart⟩
      by_cases hpa : p a = true
      · refine ⟨part, ?_, hcpart⟩
        rw [splitP_delim_cons p a l hpa]
        exact List.mem_cons_of_mem _ hpart
      · rw [hsp] at hpart
        rcases List.mem_cons.mp hpart with rfl | hpart
        · refine ⟨a :: part, ?_, List.mem_cons_of_mem _ hcpart⟩
          rw [splitP_nodelim_cons p a l (by simpa using hpa), hsp]
          simp
        · refine ⟨part, ?_, hcpart⟩
          rw [splitP_nodelim_cons p a l (by simpa using hpa), hsp]
          simp [hpart]

theorem get_values_total_aux (id t : List Char)
    (h : ∃ c ∈ id, parenP c = false) :
    (∃ r, get_values_by_id id t = some r) ∧
    (∀ vs, get_values_by_id id t = some (Except.ok vs) → vs ≠ []) := by
  cases hfind : (rustLines t).find? (fun x => id.isPrefixOf x) with
  | none =>
    unfold get_values_by_id
    rw [hfind]
    exact ⟨⟨_, rfl⟩, fun vs hvs => by simp at hvs⟩
  | some line =>
    have hid : id.isPrefixOf line = true := by
      have := List.find?_some hfind
      simpa using this
    obtain ⟨c, hcid, hcp⟩ := h
    have hcline : c ∈ line := isPrefixOf_mem hid hcid
    obtain ⟨part, hpart, hcpart⟩ := splitP_mem_exists parenP line c hcline hcp
    have hpartne : (part.length != 0) = true := by
      cases part with
      | nil => simp at hcpart
      | cons x xs => simp
    have hmem : part ∈ (splitP parenP line).filter (fun x => x.length != 0) :=
      List.mem_filter.mpr ⟨hpart, hpartne⟩
    have hstep : get_values_by_id id t = get_values_of_line line := by
      unfold get_values_by_id
      rw [hfind]
    rw [hstep]
    unfold get_values_of_line
    cases hF : (splitP parenP line).filter (fun x => x.length != 0) with
    | nil =>
      rw [hF] at hmem
      simp at hmem
    | cons z values =>
      by_cases hv : values.length ≠ 0
      · refine ⟨⟨Except.ok values, by simp [hv]⟩, ?_⟩
        intro vs hvs
        simp only [if_pos hv, Option.some.injEq, Except.ok.injEq] at hvs
        subst hvs
        intro hnil
        rw [hnil] at hv
        exact hv rfl
      · refine ⟨⟨Except.error "Values not found", by simp [hv]⟩, ?_⟩
        intro vs hvs
        change (if values.length ≠ 0 then some (Except.ok values)
          else some (Except.error "Values not found")) = some (Except.ok vs) at hvs
        rw [if_neg hv] at hvs
        simp at hvs

/-- C10 (amended): for every identifier containing at least one
non-parenthesis character — in particular every tag in the metric table
— the lookup terminates without panicking and returns either `ok` with
a nonempty list of value groups or an error; a line starting with such
an identifier always yields at least one nonempty split segment.  The
removal can panic only for identifiers all of whose characters are
parentheses (including the empty identifier, for which a telegram whose
first line is empty or all parentheses panics). -/
theorem get_values_total (id t : List Char)
    (h : ∃ c ∈ id, parenP c = false) :
    (∃ r, get_values_by_id id t = some r) ∧
    (∀ vs, get_values_by_id id t = some (Except.ok vs) → vs ≠ []) :=
  get_values_total_aux id t h

/-- Witness for the amended C10 at the usage tag and the example telegram. -/
theorem get_values_total_witness :
    (∃ r, get_values_by_id (lc "1-0:1.7.0") exampleTelegram = some r) ∧
    (∀ vs, get_values_by_id (lc "1-0:1.7.0") exampleTelegram =
      some (Except.ok vs) → vs ≠ []) :=
  get_values_total (lc "1-0:1.7.0") exampleTelegram ⟨'1', by decide, by decide⟩

/-- Strips `pat` from the end of `s` when it is a suffix, used to state
the spec's "strip the unit suffix" reading. -/
def stripSuffixL (pat s : List Char) : List Char :=
  if pat.isSuffixOf s then s.take (s.length - pat.length) else s

/-- Value group `i` of the line found for a tag, `none` when the lookup
does not succeed or the group does not exist. -/
def tagGroup (id t : List Char) (i : Nat) : Option (List Char) :=
  match get_values_by_id id t with
  | some (Except.ok vs) => vs[i]?
  | _ => none

theorem parseDecimal_eq_some {s : List Char} {m : Int} {e : Nat}
    (h : parseDecInt s = some (m, e)) :
    parseDecimal s = some ((m : ℚ) / 10 ^ e) := by
  simp [parseDecimal, h]

theorem parseDecimal_eq_none {s : List Char} (h : parseDecInt s = none) :
    parseDecimal s = none := by
  simp [parseDecimal, h]

theorem replaceAllAux_nil (pat : List Char) (fuel : Nat) :
    replaceAllAux pat [] fuel [] = [] := by
  cases fuel <;> simp [replaceAllAux]

theorem isPrefixOf_self (l : List Char) : l.isPrefixOf l = true := by
  induction l with
  | nil => simp [List.isPrefixOf]
  | cons c l ih => simp [List.isPrefixOf, ih]

theorem replaceAllAux_stem (pat : List Char) (hpat : pat.head? = some '*') :
    ∀ stem fuel, '*' ∉ stem → (stem ++ pat).length ≤ fuel →
      replaceAllAux pat [] fuel (stem ++ pat) = stem := by
  intro stem
  induction stem with
  | nil =>
    intro fuel h hf
    cases pat with
    | nil => simp at hpat
    | cons p ps =>
      cases fuel with
      | zero => simp at hf
      | succ f =>
        have hpre : (p :: ps).isPrefixOf (p :: ps) = true := isPrefixOf_self _
        simp only [List.nil_append, replaceAllAux, ne_eq, List.cons_ne_nil,
          not_false_eq_true, hpre, and_true, if_true, List.nil_append, if_pos,
          true_and]
        rw [List.drop_length, replaceAllAux_nil]
  | cons c stem ih =>
    intro fuel h hf
    cases fuel with
    | zero => simp at hf
    | succ f =>
      have hc : c ≠ '*' := fun hcc => h (by simp [hcc])
      have hnp : pat.isPrefixOf (c :: (stem ++ pat)) = false := by
        cases pat with
        | nil => simp at hpat
        | cons p ps =>
          have hp : p = '*' := by simpa using hpat
          subst hp
          simp only [List.isPrefixOf, Bool.and_eq_false_iff]
          left
          simpa using fun hcc => hc hcc.symm
      have hstem : '*' ∉ stem := fun hx => h (by simp [hx])
      have hlen : (stem ++ pat).length ≤ f := by
        simp only [List.cons_append, List.length_cons] at hf
        omega
      show replaceAllAux pat [] (f + 1) (c :: (stem ++ pat)) = c :: stem
      rw [replaceAllAux]
      rw [if_neg (by simp [hnp])]
      rw [ih f hstem hlen]

theorem replaceAll_stem (pat stem : List Char) (hpat : pat.head? = some '*')
    (hstem : '*' ∉ stem) : replaceAll pat [] (stem ++ pat) = stem :=
  replaceAllAux_stem pat hpat stem (stem ++ pat).length hstem le_rfl

theorem parse_current_tariff_exT :
    parse_current_tariff exampleTelegram = some (Except.ok 2) := by
  have h1 : get_values_by_id (lc "0-0:96.14.0") exampleTelegram =
      some (Except.ok [lc "0002"]) := by decide
  have h2 : parseDecInt (lc "0002") = some (2, 0) := by decide
  simp only [parse_current_tariff, h1, List.head?_cons, parseDecimal_eq_some h2]
  norm_num

theorem parse_w_usage_exT :
    parse_w_usage exampleTelegram = some (Except.ok 131) := by
  have h1 : get_values_by_id (lc "1-0:1.7.0") exampleTelegram =
      some (Except.ok [lc "00.131*kW"]) := by decide
  have h2 : parseDecInt (replaceAll (lc "*kW") [] (lc "00.131*kW")) =
      some (131, 3) := by decide
  simp only [parse_w_usage, h1, List.head?_cons, parseDecimal_eq_some h2]
  norm_num

theorem parse_w_production_exT :
    parse_w_production exampleTelegram = some (Except.ok 0) := by
  have h1 : get_values_by_id (lc "1-0:2.7.0") exampleTelegram =
      some (Except.ok [lc "00.000*kW"]) := by decide
  have h2 : parseDecInt (replaceAll (lc "*kW") [] (lc "00.000*kW")) =
      some (0, 3) := by decide
  simp only [parse_w_production, h1, List.head?_cons, parseDecimal_eq_some h2]
  norm_num

theorem parse_w_usage_accumulative_exT :
    parse_w_usage_accumulative exampleTelegram =
      some (Except.ok (14531.932 : ℚ)) := by
  have h1 : get_values_by_id (lc "1-0:1.8.1") exampleTelegram =
      some (Except.ok [lc "007392.132*kWh"]) := by decide
  have h2 : get_values_by_id (lc "1-0:1.8.2") exampleTelegram =
      some (Except.ok [lc "007139.800*kWh"]) := by decide
  have h3 : parseDecInt (replaceAll (lc "*kWh") [] (lc "007392.132*kWh")) =
      some (7392132, 3) := by decide
  have h4 : parseDecInt (replaceAll (lc "*kWh") [] (lc "007139.800*kWh")) =
      some (7139800, 3) := by decide
  simp only [parse_w_usage_accumulative, h1, h2, List.head?_cons,
    parseDecimal_eq_some h3, parseDecimal_eq_some h4]
  norm_num

theorem parse_w_production_accumulative_exT :
    parse_w_production_accumulative exampleTelegram =
      some (Except.ok (6241.501 : ℚ)) := by
  have h1 : get_values_by_id (lc "1-0:2.8.1") exampleTelegram =
      some (Except.ok [lc "001795.226*kWh"]) := by decide
  have h2 : get_values_by_id (lc "1-0:2.8.2") exampleTelegram =
      some (Except.ok [lc "004446.275*kWh"]) := by decide
  have h3 : parseDecInt (replaceAll (lc "*kWh") [] (lc "001795.226*kWh")) =
      some (1795226, 3) := by decide
  have h4 : parseDecInt (replaceAll (lc "*kWh") [] (lc "004446.275*kWh")) =
      some (4446275, 3) := by decide
  simp only [parse_w_production_accumulative, h1, h2, List.head?_cons,
    parseDecimal_eq_some h3, parseDecimal_eq_some h4]
  norm_num

theorem parse_gas_usage_accumulative_exT :
    parse_gas_usage_accumulative exampleTelegram =
      some (Except.ok (7025.512 : ℚ)) := by
  have h1 : get_values_by_id (lc "0-1:24.2.1") exampleTelegram =
      some (Except.ok [lc "210205130000W", lc "07025.512*m3"]) := by decide
  have hget : ([lc "210205130000W", lc "07025.512*m3"] : List (List Char))[1]? =
      some (lc "07025.512*m3") := by decide
  have hcont : containsSub (lc "*m3") (lc "07025.512*m3") = true := by decide
  have h2 : parseDecInt (replaceAll (lc "*m3") [] (lc "07025.512*m3")) =
      some (7025512, 3) := by decide
  simp only [parse_gas_usage_accumulative, h1, hget, hcont,
    parseDecimal_eq_some h2]
  norm_num

/-- Claim C7 exactly as stated: any successful instantaneous-usage
extraction is obtained by taking value group 0 of tag `1-0:1.7.0`,
stripping the `"*kW"` suffix, parsing that as a number and multiplying
by 1000. -/
def ClaimC7 : Prop :=
  ∀ t v q, tagGroup (lc "1-0:1.7.0") t 0 = some v →
    parse_w_usage t = some (Except.ok q) →
    ∃ q0, parseDecimal (stripSuffixL (lc "*kW") v) = some q0 ∧ q = q0 * 1000

/-- Counterexample to C7 as stated: on the line `1-0:1.7.0(1*kW2)` the
code removes every occurrence of `"*kW"` (`replace`, not a suffix
strip), parses `"12"` and extracts `12000`, while `"*kW"` is not a
suffix of the group, so the claimed strip-then-parse procedure has no
number to parse. -/
theorem c7_counterexample : ¬ ClaimC7 := by
  intro h
  have heval : parse_w_usage (lc "1-0:1.7.0(1*kW2)") = some (Except.ok 12000) := by
    have h1 : get_values_by_id (lc "1-0:1.7.0") (lc "1-0:1.7.0(1*kW2)") =
        some (Except.ok [lc "1*kW2"]) := by decide
    have h2 : parseDecInt (replaceAll (lc "*kW") [] (lc "1*kW2")) =
        some (12, 0) := by decide
    simp only [parse_w_usage, h1, List.head?_cons, parseDecimal_eq_some h2]
    norm_num
  obtain ⟨q0, hq0, _⟩ :=
    h (lc "1-0:1.7.0(1*kW2)") (lc "1*kW2") 12000 (by decide) heval
  have hnone : parseDecimal (stripSuffixL (lc "*kW") (lc "1*kW2")) = none :=
    parseDecimal_eq_none (by decide)
  rw [hnone] at hq0
  exact Option.noConfusion hq0

/-- C7 (amended): instantaneous usage takes value group 0 of tag
`1-0:1.7.0`, removes every occurrence of the substring `"*kW"` — which
for a group consisting of a `'*'`-free stem followed by `"*kW"` is
exactly stripping the suffix — parses the remainder (a parse failure
panicking) and multiplies by 1000; the line `1-0:1.7.0(00.131*kW)`
yields 131 watts. -/
theorem parse_w_usage_conversion :
    (∀ t vs v, get_values_by_id (lc "1-0:1.7.0") t = some (Except.ok (v :: vs)) →
      parse_w_usage t =
        match parseDecimal (replaceAll (lc "*kW") [] v) with
        | some q => some (Except.ok (q * 1000))
        | none => none) ∧
    (∀ stem, '*' ∉ stem → replaceAll (lc "*kW") [] (stem ++ lc "*kW") = stem) ∧
    parse_w_usage exampleTelegram = some (Except.ok 131) := by
  refine ⟨?_, ?_, parse_w_usage_exT⟩
  · intro t vs v h
    simp only [parse_w_usage, h, List.head?_cons]
  · intro stem hstem
    exact replaceAll_stem (lc "*kW") stem (by decide) hstem

/-- Witness for the amended C7 at the example telegram's usage line. -/
theorem parse_w_usage_conversion_witness :
    parse_w_usage exampleTelegram =
      (match parseDecimal (replaceAll (lc "*kW") [] (lc "00.131*kW")) with
        | some q => some (Except.ok (q * 1000))
        | none => none) ∧
    replaceAll (lc "*kW") [] (lc "00.131" ++ lc "*kW") = lc "00.131" :=
  ⟨parse_w_usage_conversion.1 exampleTelegram [] (lc "00.131*kW") (by decide),
   parse_w_usage_conversion.2.1 (lc "00.131") (by decide)⟩

/-- Claim C6 exactly as stated (conversion part): any successful gas
extraction parses value group 1 of tag `0-1:24.2.1` with its `"*m3"`
suffix stripped. -/
def ClaimC6 : Prop :=
  ∀ t v q, tagGroup (lc "0-1:24.2.1") t 1 = some v →
    parse_gas_usage_accumulative t = some (Except.ok q) →
    parseDecimal (stripSuffixL (lc "*m3") v) = some q

/-- Counterexample to C6 as stated: on the line `0-1:24.2.1(x)(1*m32)`
the group contains `"*m3"` (so the unit check passes) but not as a
suffix; the code removes the occurrence (`replace`, not a suffix strip)
and extracts `12`, while the claimed strip-then-parse procedure has no
number to parse. -/
theorem c6_counterexample : ¬ ClaimC6 := by
  intro h
  have heval : parse_gas_usage_accumulative (lc "0-1:24.2.1(x)(1*m32)") =
      some (Except.ok 12) := by
    have h1 : get_values_by_id (lc "0-1:24.2.1") (lc "0-1:24.2.1(x)(1*m32)") =
        some (Except.ok [lc "x", lc "1*m32"]) := by decide
    have hget : ([lc "x", lc "1*m32"] : List (List Char))[1]? =
        some (lc "1*m32") := by decide
    have hcont : containsSub (lc "*m3") (lc "1*m32") = true := by decide
    have h2 : parseDecInt (replaceAll (lc "*m3") [] (lc "1*m32")) =
        some (12, 0) := by decide
    simp only [parse_gas_usage_accumulative, h1, hget, hcont,
      parseDecimal_eq_some h2]
    norm_num
  have hq := h _ (lc "1*m32") 12 (by decide) heval
  have hnone : parseDecimal (stripSuffixL (lc "*m3") (lc "1*m32")) = none :=
    parseDecimal_eq_none (by decide)
  rw [hnone] at hq
  exact Option.noConfusion hq

/-- C6 (amended): gas extraction never panics; it uses value group 1 of
tag `0-1:24.2.1` (group 0, a timestamp, is ignored); when that group
does not contain `"*m3"` it fails with the invalid-unit error without a
numeric parse; otherwise it removes the occurrences of `"*m3"` — for a
group that is a `'*'`-free stem followed by `"*m3"`, exactly stripping
the suffix — and parses, a parse failure being a recoverable error; the
line `0-1:24.2.1(210205130000W)(07025.512*m3)` yields 7025.512. -/
theorem parse_gas_conversion :
    (∀ t, ∃ r, parse_gas_usage_accumulative t = some r) ∧
    (∀ t v, tagGroup (lc "0-1:24.2.1") t 1 = some v →
      containsSub (lc "*m3") v = false →
      parse_gas_usage_accumulative t =
        some (Except.error "Invalid gas usage detected, not parsing")) ∧
    (∀ t v, tagGroup (lc "0-1:24.2.1") t 1 = some v →
      containsSub (lc "*m3") v = true →
      parseDecimal (replaceAll (lc "*m3") [] v) = none →
      parse_gas_usage_accumulative t =
        some (Except.error "Could not parse gas usage accumulative")) ∧
    (∀ stem, '*' ∉ stem → replaceAll (lc "*m3") [] (stem ++ lc "*m3") = stem) ∧
    parse_gas_usage_accumulative exampleTelegram =
      some (Except.ok (7025.512 : ℚ)) := by
  refine ⟨?_, ?_, ?_, ?_, parse_gas_usage_accumulative_exT⟩
  · intro t
    obtain ⟨r, hr⟩ :=
      (get_values_total_aux (lc "0-1:24.2.1") t ⟨'0', by decide, by decide⟩).1
    cases r with
    | error e =>
      exact ⟨Except.error e, by simp only [parse_gas_usage_accumulative, hr]⟩
    | ok vs =>
      cases hv : vs[1]? with
      | none =>
        exact ⟨Except.error "Could not read gas usage accumulative",
          by simp only [parse_gas_usage_accumulative, hr, hv]⟩
      | some v =>
        cases hcb : containsSub (lc "*m3") v with
        | false =>
          exact ⟨Except.error "Invalid gas usage detected, not parsing",
            by simp [parse_gas_usage_accumulative, hr, hv, hcb]⟩
        | true =>
          cases hp : parseDecimal (replaceAll (lc "*m3") [] v) with
          | none =>
            exact ⟨Except.error "Could not parse gas usage accumulative",
              by simp [parse_gas_usage_accumulative, hr, hv, hcb, hp]⟩
          | some q =>
            exact ⟨Except.ok q,
              by simp [parse_gas_usage_accumulative, hr, hv, hcb, hp]⟩
  · intro t v htag hcont
    cases hgv : get_values_by_id (lc "0-1:24.2.1") t with
    | none => simp [tagGroup, hgv] at htag
    | some r =>
      cases r with
      | error e => simp [tagGroup, hgv] at htag
      | ok vs =>
        have hv : vs[1]? = some v := by simpa [tagGroup, hgv] using htag
        simp [parse_gas_usage_accumulative, hgv, hv, hcont]
  · intro t v htag hcont hp
    cases hgv : get_values_by_id (lc "0-1:24.2.1") t with
    | none => simp [tagGroup, hgv] at htag
    | some r =>
      cases r with
      | error e => simp [tagGroup, hgv] at htag
      | ok vs =>
        have hv : vs[1]? = some v := by simpa [tagGroup, hgv] using htag
        simp [parse_gas_usage_accumulative, hgv, hv, hcont, hp]
  · intro stem hstem
    exact replaceAll_stem (lc "*m3") stem (by decide) hstem

/-- Witness for the amended C6: totality at the example telegram, the
invalid-unit error on `0-1:24.2.1(x)(5)`, the recoverable parse error on
`0-1:24.2.1(x)(*m3)`, and suffix stripping on the example group. -/
theorem parse_gas_conversion_witness :
    (∃ r, parse_gas_usage_accumulative exampleTelegram = some r) ∧
    parse_gas_usage_accumulative (lc "0-1:24.2.1(x)(5)") =
      some (Except.error "Invalid gas usage detected, not parsing") ∧
    parse_gas_usage_accumulative (lc "0-1:24.2.1(x)(*m3)") =
      some (Except.error "Could not parse gas usage accumulative") ∧
    replaceAll (lc "*m3") [] (lc "07025.512" ++ lc "*m3") = lc "07025.512" :=
  ⟨parse_gas_conversion.1 exampleTelegram,
   parse_gas_conversion.2.1 (lc "0-1:24.2.1(x)(5)") (lc "5")
     (by decide) (by decide),
   parse_gas_conversion.2.2.1 (lc "0-1:24.2.1(x)(*m3)") (lc "*m3")
     (by decide) (by decide) (parseDecimal_eq_none (by decide)),
   parse_gas_conversion.2.2.2.1 (lc "07025.512") (by decide)⟩

/-- Telegram whose usage value group is not a number after suffix
removal, with a well-formed gas line after it. -/
def panicTelegram : List Char :=
  lc "1-0:1.7.0(abc*kW)\r\n0-1:24.2.1(210205130000W)(07025.512*m3)\r\n"

/-- C5 (code bug): a value group that is not a valid decimal number
after suffix removal makes `parse_w_usage` panic (the `expect` call),
and the panic halts `parse_telegram`: no later metric of the same
telegram is extracted or forwarded, although the telegram's gas line
would extract successfully on its own. -/
theorem parse_telegram_halts_on_malformed_number :
    parse_w_usage panicTelegram = none ∧
    parse_telegram panicTelegram = ([], true) ∧
    parse_gas_usage_accumulative panicTelegram =
      some (Except.ok (7025.512 : ℚ)) := by
  have hu : parse_w_usage panicTelegram = none := by
    have h1 : get_values_by_id (lc "1-0:1.7.0") panicTelegram =
        some (Except.ok [lc "abc*kW"]) := by decide
    have h2 : parseDecInt (replaceAll (lc "*kW") [] (lc "abc*kW")) = none := by
      decide
    simp only [parse_w_usage, h1, List.head?_cons, parseDecimal_eq_none h2]
  have ht : parse_current_tariff panicTelegram =
      some (Except.error "Index not found") := by
    have h1 : get_values_by_id (lc "0-0:96.14.0") panicTelegram =
        some (Except.error "Index not found") := by decide
    simp only [parse_current_tariff, h1]
  refine ⟨hu, ?_, ?_⟩
  · simp only [parse_telegram, ht, hu, parse_telegram_core, emitE]
  · have h1 : get_values_by_id (lc "0-1:24.2.1") panicTelegram =
        some (Except.ok [lc "210205130000W", lc "07025.512*m3"]) := by decide
    have hget : ([lc "210205130000W", lc "07025.512*m3"] : List (List Char))[1]? =
        some (lc "07025.512*m3") := by decide
    have hcont : containsSub (lc "*m3") (lc "07025.512*m3") = true := by decide
    have h2 : parseDecInt (replaceAll (lc "*m3") [] (lc "07025.512*m3")) =
        some (7025512, 3) := by decide
    simp only [parse_gas_usage_accumulative, h1, hget, hcont,
      parseDecimal_eq_some h2]
    norm_num

theorem mem_emitE_iff (k' k : String) (x : ℚ) (r : Except String ℚ) :
    (k', x) ∈ emitE k r ↔ k' = k ∧ r = Except.ok x := by
  cases r with
  | error e => simp [emitE]
  | ok v =>
    simp only [emitE, List.mem_singleton, Prod.mk.injEq, Except.ok.injEq]
    constructor
    · rintro ⟨h1, h2⟩
      exact ⟨h1, h2.symm⟩
    · rintro ⟨h1, h2⟩
      exact ⟨h1, h2.symm⟩

theorem mem_nettE_iff (k' k : String) (x : ℚ) (p u : Except String ℚ) :
    (k', x) ∈ nettE k p u ↔
      k' = k ∧ ∃ a b, p = Except.ok a ∧ u = Except.ok b ∧ x = a - b := by
  cases p with
  | error e => simp [nettE]
  | ok a =>
    cases u with
    | error e => simp [nettE]
    | ok b =>
      simp only [nettE, List.mem_singleton, Prod.mk.injEq, Except.ok.injEq]
      constructor
      · rintro ⟨h1, h2⟩
        exact ⟨h1, a, b, rfl, rfl, h2⟩
      · rintro ⟨h1, a', b', ha, hb, h2⟩
        subst ha
        subst hb
        exact ⟨h1, h2⟩

theorem core_nett (r1 r2 r3 r4 r5 r6 : Option (Except String ℚ)) :
    ((parse_telegram_core r1 r2 r3 r4 r5 r6).2 = false →
      ∀ p u, r4 = some (Except.ok p) → r2 = some (Except.ok u) →
        ("wattNett", p - u) ∈ (parse_telegram_core r1 r2 r3 r4 r5 r6).1) ∧
    (∀ x, ("wattNett", x) ∈ (parse_telegram_core r1 r2 r3 r4 r5 r6).1 →
      ∃ p u, r4 = some (Except.ok p) ∧ r2 = some (Except.ok u) ∧ x = p - u) ∧
    ((parse_telegram_core r1 r2 r3 r4 r5 r6).2 = false →
      ∀ pa ua, r5 = some (Except.ok pa) → r3 = some (Except.ok ua) →
        ("wattAccumulativeNett", pa - ua) ∈
          (parse_telegram_core r1 r2 r3 r4 r5 r6).1) ∧
    (∀ x, ("wattAccumulativeNett", x) ∈ (parse_telegram_core r1 r2 r3 r4 r5 r6).1 →
      ∃ pa ua, r5 = some (Except.ok pa) ∧ r3 = some (Except.ok ua) ∧
        x = pa - ua) := by
  rcases r1 with _ | t1 <;> rcases r2 with _ | u <;> rcases r3 with _ | ua <;>
    rcases r4 with _ | p <;> rcases r5 with _ | pa <;> rcases r6 with _ | g <;>
    simp [parse_telegram_core, mem_emitE_iff, mem_nettE_iff] <;>
    exact ⟨fun p1 u1 hp hu => ⟨p1, hp, u1, hu, rfl⟩,
      fun pa1 ua1 hpa hua => ⟨pa1, hpa, ua1, hua, rfl⟩⟩

/-- C8: the nett metrics are production minus usage; `wattNett` is
forwarded exactly with value `p - u` when instantaneous production `p`
and usage `u` both succeeded (and, on a run that completes without
panicking, always then); a forwarded nett value can only arise from two
successful operands, never from a partial or default value; likewise
for the cumulative nett metric. -/
theorem nett_metrics (t : List Char) :
    ((parse_telegram t).2 = false →
      ∀ p u, parse_w_production t = some (Except.ok p) →
        parse_w_usage t = some (Except.ok u) →
        ("wattNett", p - u) ∈ (parse_telegram t).1) ∧
    (∀ x, ("wattNett", x) ∈ (parse_telegram t).1 →
      ∃ p u, parse_w_production t = some (Except.ok p) ∧
        parse_w_usage t = some (Except.ok u) ∧ x = p - u) ∧
    ((parse_telegram t).2 = false →
      ∀ pa ua, parse_w_production_accumulative t = some (Except.ok pa) →
        parse_w_usage_accumulative t = some (Except.ok ua) →
        ("wattAccumulativeNett", pa - ua) ∈ (parse_telegram t).1) ∧
    (∀ x, ("wattAccumulativeNett", x) ∈ (parse_telegram t).1 →
      ∃ pa ua, parse_w_production_accumulative t = some (Except.ok pa) ∧
        parse_w_usage_accumulative t = some (Except.ok ua) ∧ x = pa - ua) :=
  core_nett (parse_current_tariff t) (parse_w_usage t)
    (parse_w_usage_accumulative t) (parse_w_production t)
    (parse_w_production_accumulative t) (parse_gas_usage_accumulative t)

theorem parse_telegram_exT :
    parse_telegram exampleTelegram =
      ([("currentTariff", 2), ("wattUsage", 131),
        ("wattUsageAccumulative", (14531.932 : ℚ)), ("wattProduction", 0),
        ("wattNett", (0 : ℚ) - 131),
        ("wattProductionAccumulative", (6241.501 : ℚ)),
        ("wattAccumulativeNett", (6241.501 : ℚ) - 14531.932),
        ("gasUsageAccumulative", (7025.512 : ℚ))], false) := by
  simp only [parse_telegram, parse_current_tariff_exT, parse_w_usage_exT,
    parse_w_usage_accumulative_exT, parse_w_production_exT,
    parse_w_production_accumulative_exT, parse_gas_usage_accumulative_exT,
    parse_telegram_core, emitE, nettE]
  rfl

/-- Witness for C8: on the example telegram (usage 131 W, production
0 W) the run completes and forwards nett instantaneous power 0 − 131,
which is −131. -/
theorem nett_metrics_witness :
    (parse_telegram exampleTelegram).2 = false ∧
    ("wattNett", (0 : ℚ) - 131) ∈ (parse_telegram exampleTelegram).1 ∧
    ((0 : ℚ) - 131 = -131) := by
  have h2 : (parse_telegram exampleTelegram).2 = false := by
    rw [parse_telegram_exT]
  exact ⟨h2,
    (nett_metrics exampleTelegram).1 h2 0 131 parse_w_production_exT
      parse_w_usage_exT,
    by norm_num⟩


/-- Availability of each metric key as a function of the six extraction
results: a plain metric is available when its extraction succeeded, a
nett metric when both of its operands succeeded. -/
def availCore (r1 r2 r3 r4 r5 r6 : Option (Except String ℚ)) (k : String) : Bool :=
  if k = "currentTariff" then succeeded r1
  else if k = "wattUsage" then succeeded r2
  else if k = "wattUsageAccumulative" then succeeded r3
  else if k = "wattProduction" then succeeded r4
  else if k = "wattNett" then succeeded r4 && succeeded r2
  else if k = "wattProductionAccumulative" then succeeded r5
  else if k = "wattAccumulativeNett" then succeeded r5 && succeeded r3
  else if k = "gasUsageAccumulative" then succeeded r6
  else false


theorem availCore_k1 (r1 r2 r3 r4 r5 r6 : Option (Except String ℚ)) :
    availCore r1 r2 r3 r4 r5 r6 "currentTariff" = succeeded r1 := by
  simp [availCore]

theorem availCore_k2 (r1 r2 r3 r4 r5 r6 : Option (Except String ℚ)) :
    availCore r1 r2 r3 r4 r5 r6 "wattUsage" = succeeded r2 := by
  simp [availCore]

theorem availCore_k3 (r1 r2 r3 r4 r5 r6 : Option (Except String ℚ)) :
    availCore r1 r2 r3 r4 r5 r6 "wattUsageAccumulative" = succeeded r3 := by
  simp [availCore]

theorem availCore_k4 (r1 r2 r3 r4 r5 r6 : Option (Except String ℚ)) :
    availCore r1 r2 r3 r4 r5 r6 "wattProduction" = succeeded r4 := by
  simp [availCore]

theorem availCore_k5 (r1 r2 r3 r4 r5 r6 : Option (Except String ℚ)) :
    availCore r1 r2 r3 r4 r5 r6 "wattNett" = (succeeded r4 && succeeded r2) := by
  simp [availCore]

theorem availCore_k6 (r1 r2 r3 r4 r5 r6 : Option (Except String ℚ)) :
    availCore r1 r2 r3 r4 r5 r6 "wattProductionAccumulative" = succeeded r5 := by
  simp [availCore]

theorem availCore_k7 (r1 r2 r3 r4 r5 r6 : Option (Except String ℚ)) :
    availCore r1 r2 r3 r4 r5 r6 "wattAccumulativeNett" =
      (succeeded r5 && succeeded r3) := by
  simp [availCore]

theorem availCore_k8 (r1 r2 r3 r4 r5 r6 : Option (Except String ℚ)) :
    availCore r1 r2 r3 r4 r5 r6 "gasUsageAccumulative" = succeeded r6 := by
  simp [availCore]

theorem core_keys (r1 r2 r3 r4 r5 r6 : Option (Except String ℚ)) :
    ((parse_telegram_core r1 r2 r3 r4 r5 r6).1.map Prod.fst).Sublist metricOrder ∧
    ((parse_telegram_core r1 r2 r3 r4 r5 r6).2 = false →
      (parse_telegram_core r1 r2 r3 r4 r5 r6).1.map Prod.fst =
        metricOrder.filter (availCore r1 r2 r3 r4 r5 r6)) := by
  cases r1 with
  | none =>
    exact ⟨by simp [parse_telegram_core], by intro h; simp [parse_telegram_core] at h⟩
  | some v1 =>
  cases r2 with
  | none =>
    refine ⟨?_, by intro h; simp [parse_telegram_core] at h⟩
    rcases v1 with e1 | q1 <;>
      simp [parse_telegram_core, emitE, metricOrder]
  | some v2 =>
  cases r3 with
  | none =>
    refine ⟨?_, by intro h; simp [parse_telegram_core] at h⟩
    rcases v1 with e1 | q1 <;> rcases v2 with e2 | q2 <;>
      simp [parse_telegram_core, emitE, metricOrder]
  | some v3 =>
  cases r4 with
  | none =>
    refine ⟨?_, by intro h; simp [parse_telegram_core] at h⟩
    rcases v1 with e1 | q1 <;> rcases v2 with e2 | q2 <;> rcases v3 with e3 | q3 <;>
      simp [parse_telegram_core, emitE, metricOrder]
  | some v4 =>
  cases r5 with
  | none =>
    refine ⟨?_, by intro h; simp [parse_telegram_core] at h⟩
    rcases v1 with e1 | q1 <;> rcases v2 with e2 | q2 <;> rcases v3 with e3 | q3 <;>
      rcases v4 with e4 | q4 <;>
      simp [parse_telegram_core, emitE, nettE, metricOrder]
  | some v5 =>
  cases r6 with
  | none =>
    refine ⟨?_, by intro h; simp [parse_telegram_core] at h⟩
    rcases v1 with e1 | q1 <;> rcases v2 with e2 | q2 <;> rcases v3 with e3 | q3 <;>
      rcases v4 with e4 | q4 <;> rcases v5 with e5 | q5 <;>
      simp [parse_telegram_core, emitE, nettE, metricOrder] <;> decide
  | some v6 =>
  refine ⟨?_, ?_⟩
  · rcases v1 with e1 | q1 <;> rcases v2 with e2 | q2 <;> rcases v3 with e3 | q3 <;>
      rcases v4 with e4 | q4 <;> rcases v5 with e5 | q5 <;> rcases v6 with e6 | q6 <;>
      simp [parse_telegram_core, emitE, nettE, metricOrder] <;> decide
  · intro h
    rcases v1 with e1 | q1 <;> rcases v2 with e2 | q2 <;> rcases v3 with e3 | q3 <;>
      rcases v4 with e4 | q4 <;> rcases v5 with e5 | q5 <;> rcases v6 with e6 | q6 <;>
      simp [parse_telegram_core, emitE, nettE, metricOrder, List.filter_cons,
        availCore_k1, availCore_k2, availCore_k3, availCore_k4, availCore_k5,
        availCore_k6, availCore_k7, availCore_k8, succeeded]

/-- Availability of each metric key on a given telegram. -/
def availB (t : List Char) (k : String) : Bool :=
  availCore (parse_current_tariff t) (parse_w_usage t)
    (parse_w_usage_accumulative t) (parse_w_production t)
    (parse_w_production_accumulative t) (parse_gas_usage_accumulative t) k

/-- C9: metrics are forwarded in the fixed sequence tariff, usage,
cumulative usage, production, nett instantaneous (when both operands are
available), cumulative production, nett cumulative (when both operands
are available), gas: the forwarded key sequence is always a sublist of
this fixed order, and on a run that completes without panicking it is
exactly the fixed order filtered by per-metric availability. -/
theorem output_ordering (t : List Char) :
    ((parse_telegram t).1.map Prod.fst).Sublist metricOrder ∧
    ((parse_telegram t).2 = false →
      (parse_telegram t).1.map Prod.fst = metricOrder.filter (availB t)) :=
  core_keys (parse_current_tariff t) (parse_w_usage t)
    (parse_w_usage_accumulative t) (parse_w_production t)
    (parse_w_production_accumulative t) (parse_gas_usage_accumulative t)

/-- Witness for C9 at the example telegram, where every metric succeeds
and the full fixed key sequence is produced. -/
theorem output_ordering_witness :
    ((parse_telegram exampleTelegram).1.map Prod.fst).Sublist metricOrder ∧
    (parse_telegram exampleTelegram).1.map Prod.fst =
      metricOrder.filter (availB exampleTelegram) :=
  ⟨(output_ordering exampleTelegram).1,
   (output_ordering exampleTelegram).2 (by rw [parse_telegram_exT])⟩
